import Mathlib

/-!
Shallow embedding of the trigger-timeline engine of sequencer64
(src/libseq64/src/triggers.cpp) and of the JACK tick multiplier
(src/libseq64/include/jack_assistant.hpp), together with theorems that
settle the spec claims about them.

`midipulse` (a C++ `long`) is modelled as `Int`; none of the verified
operations come anywhere near the 64-bit range, so wraparound is not
modelled.  The C++ `%` operator on `long` truncates toward zero, which is
`Int.tmod`.  The code is compiled without `SEQ64_SONG_RECORDING` and
without `SEQ64_SONG_BOX_SELECT` (neither is defined in
seq64_features.h), so those `#ifdef` blocks are omitted.
-/

namespace Seq64

/-- The trigger record: an inclusive interval of ticks, a content offset
and a selection flag (class `trigger` in triggers.hpp; its fields are
read and written throughout triggers.cpp). -/
structure Trigger where
  tick_start : Int
  tick_end : Int
  offset : Int
  selected : Bool
deriving Repr, DecidableEq

/-- The state of a `triggers` object that the verified operations touch:
the trigger list `m_triggers`, the selection counter
`m_number_selected`, the undo and redo stacks (head = top), the parent
sequence length `m_length` and `m_ppqn`. -/
structure TrigState where
  triggers : List Trigger
  number_selected : Int
  undo_stack : List (List Trigger)
  redo_stack : List (List Trigger)
  length : Int
  ppqn : Int
deriving Repr, DecidableEq

/-- triggers::adjust_offset: when `m_length > 0`, take `offset % m_length`
(C++ truncating `%`, i.e. `Int.tmod`) and add `m_length` if the result is
negative; otherwise return the offset unchanged. -/
def adjust_offset (len off : Int) : Int :=
  if len > 0 then
    let o := Int.tmod off len
    if o < 0 then o + len else o
  else off

/-- Selecting one trigger (triggers::select(trigger &, bool)): set the
flag only if it was clear, and bump the counter only when `count` is
true.  Returns the updated trigger and counter. -/
def selectOne (t : Trigger) (cnt : Int) (count : Bool) : Trigger × Int :=
  if t.selected then (t, cnt)
  else ({ t with selected := true }, if count then cnt + 1 else cnt)

/-- Unselecting one trigger (triggers::unselect(trigger &, bool)): clear
the flag only if it was set; when `count` is true the counter is
decremented only while positive (an underflow is only reported). -/
def unselectOne (t : Trigger) (cnt : Int) (count : Bool) : Trigger × Int :=
  if t.selected then
    ({ t with selected := false },
     if count then (if cnt > 0 then cnt - 1 else cnt) else cnt)
  else (t, cnt)

/-- Modelled from the spec: triggers are kept ordered by `tick_start`
(`trigger::operator <` lives in triggers.hpp, which is not part of the
sources here; the spec says the list is always kept tick-sorted).
`std::list::sort` is stable, so the model is a stable insertion sort:
an element is placed before the first element whose start is not
smaller. -/
def insertByStart (t : Trigger) : List Trigger → List Trigger
  | [] => [t]
  | u :: us =>
    if u.tick_start < t.tick_start then u :: insertByStart t us
    else t :: u :: us

/-- Stable sort of the trigger list by `tick_start` (`m_triggers.sort()`). -/
def sortByStart (ts : List Trigger) : List Trigger :=
  ts.foldr insertByStart []

/-- The reconciliation loop of triggers::add, iterating by index `i` over
the list.  A trigger fully inside the new one is unselected (counting)
and erased, after which the C++ code sets the iterator to `begin()` and
the `continue` statement immediately increments it - so the scan resumes
at index 1, skipping the new first element.  A trigger whose end falls
inside the new one has its start pushed past the new end; a trigger
whose start falls inside has its end pulled before the new start.
`fuel` is a step bound; `add` supplies enough for the loop to finish
(each erase shrinks the list, each other step advances the index). -/
def addLoop (t : Trigger) : Nat → List Trigger → Int → Nat → List Trigger × Int
  | 0, ts, cnt, _ => (ts, cnt)
  | fuel + 1, ts, cnt, i =>
    match ts[i]? with
    | none => (ts, cnt)
    | some tr =>
      if tr.tick_start ≥ t.tick_start ∧ tr.tick_end ≤ t.tick_end then
        let cnt' := if tr.selected then (if cnt > 0 then cnt - 1 else cnt) else cnt
        addLoop t fuel (ts.eraseIdx i) cnt' 1
      else if tr.tick_end ≥ t.tick_end ∧ tr.tick_start ≤ t.tick_end then
        addLoop t fuel (ts.set i { tr with tick_start := t.tick_end + 1 }) cnt (i + 1)
      else if tr.tick_end ≥ t.tick_start ∧ tr.tick_start ≤ t.tick_start then
        addLoop t fuel (ts.set i { tr with tick_end := t.tick_start - 1 }) cnt (i + 1)
      else
        addLoop t fuel ts cnt (i + 1)

/-- triggers::add(tick, len, offset, fixoffset): build the new trigger
spanning `[tick, tick+len-1]` (its offset adjusted when `fixoffset`,
its selection flag cleared), reconcile every existing trigger against
it, push it at the front and re-sort the list.  There is no length
validation in the source. -/
def add (s : TrigState) (tick len off : Int) (fixoffset : Bool) : TrigState :=
  let t : Trigger :=
    { tick_start := tick
      tick_end := tick + len - 1
      offset := if fixoffset then adjust_offset s.length off else off
      selected := false }
  let r := addLoop t ((s.triggers.length + 1) * (s.triggers.length + 2))
             s.triggers s.number_selected 0
  { s with triggers := sortByStart (t :: r.1), number_selected := r.2 }

/-- triggers::push_undo: push a copy of `m_triggers` onto the undo stack
and unselect every trigger of that snapshot without touching the live
counter; the live list is unchanged. -/
def push_undo (s : TrigState) : TrigState :=
  { s with undo_stack :=
      (s.triggers.map fun t => { t with selected := false }) :: s.undo_stack }

/-- triggers::pop_undo: when the undo stack is non-empty, push the live
list onto the redo stack, replace it by the top of the undo stack and
pop that stack; otherwise do nothing. -/
def pop_undo (s : TrigState) : TrigState :=
  match s.undo_stack with
  | [] => s
  | top :: rest =>
    { s with redo_stack := s.triggers :: s.redo_stack
             triggers := top
             undo_stack := rest }

/-- triggers::pop_redo: the mirror image of pop_undo. -/
def pop_redo (s : TrigState) : TrigState :=
  match s.redo_stack with
  | [] => s
  | top :: rest =>
    { s with undo_stack := s.triggers :: s.undo_stack
             triggers := top
             redo_stack := rest }

/-- The scan loop of triggers::play over the trigger list, threading the
triple (trigger_state, trigger_tick, trigger_offset), initially
(false, 0, 0).  A trigger whose start is at or before `end_tick` turns
the state on; a trigger whose end is at or before `end_tick` then turns
it off again; the scan breaks at the first trigger with start or end
beyond `end_tick` (after that trigger has been applied). -/
def playScan (end_tick : Int) : List Trigger → Bool × Int × Int → Bool × Int × Int
  | [], st => st
  | tr :: rest, st =>
    let st1 := if tr.tick_start ≤ end_tick then (true, tr.tick_start, tr.offset) else st
    let st2 := if tr.tick_end ≤ end_tick then (false, tr.tick_end, tr.offset) else st1
    if tr.tick_start > end_tick ∨ tr.tick_end > end_tick then st2
    else playScan end_tick rest st2

/-- The outcome of one triggers::play call: the boolean result (true =
the frame is done and the caller should stop), the two tick
parameters as modified through their references, the parent sequence's
playing flag, and the trigger offset handed to the parent. -/
structure PlayResult where
  result : Bool
  start_tick : Int
  end_tick : Int
  playing : Bool
  trigger_offset : Int
deriving Repr, DecidableEq

/-- triggers::play(start_tick, end_tick) compiled without
SEQ64_SONG_RECORDING.  `playing` is the parent sequence's playing flag
(m_parent.get_playing()), `last_tick` is m_parent.m_last_tick.  After
the scan: if the scanned state differs from the playing flag, either
turn the sequence on (start_tick becomes the larger of the trigger
tick and the parent's last tick) or report the frame done (end_tick
becomes the trigger tick, result true).  A playing sequence with no
triggers at all is forced off.  The trigger offset is always handed to
the parent. -/
def play (ts : List Trigger) (playing : Bool) (last_tick start0 end0 : Int) :
    PlayResult :=
  let scan := playScan end0 ts (false, 0, 0)
  let trigger_state := scan.1
  let trigger_tick := scan.2.1
  let trigger_offset := scan.2.2
  let ok := trigger_state ≠ playing
  let r :=
    if ok then
      if trigger_state then
        ⟨false, if trigger_tick < last_tick then last_tick else trigger_tick,
         end0, true, trigger_offset⟩
      else
        (⟨true, start0, trigger_tick, playing, trigger_offset⟩ : PlayResult)
    else ⟨false, start0, end0, playing, trigger_offset⟩
  if ts.length = 0 ∧ r.playing then { r with playing := false } else r

/-- Modelled from the spec: sequence::play (the caller of
triggers::play, not among the sources here) stops the track when
triggers::play reports the frame done - the spec's play description
says turning off "signals the caller to stop the frame", and its
scenario reads "playing=false at tick 100".  The playing flag after a
full play step is therefore false when the result is true. -/
def seqPlayStep (ts : List Trigger) (playing : Bool)
    (last_tick start0 end0 : Int) : PlayResult :=
  let r := play ts playing last_tick start0 end0
  if r.result then { r with playing := false } else r

/-- Whether a trigger brackets the given tick (the test
`tick_start() <= tick && tick <= tick_end()` used all over
triggers.cpp). -/
def brackets (tr : Trigger) (tick : Int) : Prop :=
  tr.tick_start ≤ tick ∧ tick ≤ tr.tick_end

instance (tr : Trigger) (tick : Int) : Decidable (brackets tr tick) :=
  inferInstanceAs (Decidable (_ ∧ _))

/-- The loop of triggers::select(midipulse): every trigger bracketing
the tick is selected (with counting); there is no early break. -/
def selectTickLoop (tick : Int) : List Trigger → Int → List Trigger × Int
  | [], cnt => ([], cnt)
  | tr :: rest, cnt =>
    let p := if brackets tr tick then selectOne tr cnt true else (tr, cnt)
    let q := selectTickLoop tick rest p.2
    (p.1 :: q.1, q.2)

/-- triggers::select(midipulse) acting on the state. -/
def selectTick (s : TrigState) (tick : Int) : TrigState :=
  let r := selectTickLoop tick s.triggers s.number_selected
  { s with triggers := r.1, number_selected := r.2 }

/-- The loop of triggers::unselect(midipulse): every trigger bracketing
the tick is unselected (with counting). -/
def unselectTickLoop (tick : Int) : List Trigger → Int → List Trigger × Int
  | [], cnt => ([], cnt)
  | tr :: rest, cnt =>
    let p := if brackets tr tick then unselectOne tr cnt true else (tr, cnt)
    let q := unselectTickLoop tick rest p.2
    (p.1 :: q.1, q.2)

/-- triggers::unselect(midipulse) acting on the state. -/
def unselectTick (s : TrigState) (tick : Int) : TrigState :=
  let r := unselectTickLoop tick s.triggers s.number_selected
  { s with triggers := r.1, number_selected := r.2 }

/-- triggers::remove(midipulse): erase the first trigger bracketing the
tick, unselecting it first (with counting). -/
def removeTick (s : TrigState) (tick : Int) : TrigState :=
  match s.triggers.findIdx? (fun tr => decide (brackets tr tick)) with
  | none => s
  | some i =>
    match s.triggers[i]? with
    | none => s
    | some tr =>
      let cnt := if tr.selected then
          (if s.number_selected > 0 then s.number_selected - 1
           else s.number_selected)
        else s.number_selected
      { s with triggers := s.triggers.eraseIdx i, number_selected := cnt }

/-- triggers::split(trigger &, midipulse): truncate the trigger (here
the list element at `idx`) to end at `splittick - 1`; then, only when
the remaining span `old_end - splittick` exceeds 1, add a new trigger
`[splittick, old_end]` with the same offset.  The inner add call leaves
its fixoffset argument at its default; modelled from the spec, which
says the new trigger carries the same offset, that default does not
adjust the offset (the declaration with the default value is in
triggers.hpp, not among the sources here). -/
def splitAt (s : TrigState) (idx : Nat) (splittick : Int) : TrigState :=
  match s.triggers[idx]? with
  | none => s
  | some trig =>
    let new_tick_end := trig.tick_end
    let s1 := { s with triggers :=
        (s.triggers.set idx { trig with tick_end := splittick - 1 }) }
    let len := new_tick_end - splittick
    if len > 1 then add s1 splittick (len + 1) trig.offset false else s1

/-- triggers::exact_split(midipulse): split the first trigger bracketing
the tick exactly there. -/
def exact_split (s : TrigState) (splittick : Int) : TrigState :=
  match s.triggers.findIdx? (fun tr => decide (brackets tr splittick)) with
  | none => s
  | some i => splitAt s i splittick

/-- triggers::grow(tickfrom, tickto, len): find the first trigger
bracketing `tickfrom`, extend its bounds to reach `tickto` (start) and
`tickto + len - 1` (end) where that enlarges them, and re-add the
enlarged trigger with its offset (reconciliation then happens inside
add). -/
def grow (s : TrigState) (tickfrom tickto len : Int) : TrigState :=
  match s.triggers.findIdx? (fun tr => decide (brackets tr tickfrom)) with
  | none => s
  | some i =>
    match s.triggers[i]? with
    | none => s
    | some tr =>
      let calcend := tickto + len - 1
      let start := if tickto < tr.tick_start then tickto else tr.tick_start
      let ender := if calcend > tr.tick_end then calcend else tr.tick_end
      add s start (ender - start + 1) tr.offset false

/-!
triggers::move iterates over the `std::list` while its loop body calls
split - and thereby add, which pushes a node and re-sorts the list - or
erases nodes.  `std::list` iterators stay attached to their node through
a sort (sorting splices nodes), so the iteration is modelled on nodes
tagged with an identity: the iterator is the id of the current node, and
advancing moves to the node after it in the current list order.
-/

/-- A trigger list node: the trigger value plus an identity tag standing
for the `std::list` node, so that iterator positions survive the
re-sorting done by the add call inside split. -/
structure NTrig where
  id : Nat
  tr : Trigger
deriving Repr, DecidableEq

/-- The state threaded through triggers::move: the tagged trigger list,
the selection counter, and the next fresh node id. -/
structure MoveSt where
  nodes : List NTrig
  cnt : Int
  nid : Nat
deriving Repr, DecidableEq

/-- Stable insertion by `tick_start` on tagged nodes (same ordering as
sortByStart; see the comment there). -/
def insertNodeByStart (t : NTrig) : List NTrig → List NTrig
  | [] => [t]
  | u :: us =>
    if u.tr.tick_start < t.tr.tick_start then u :: insertNodeByStart t us
    else t :: u :: us

/-- Stable sort of tagged nodes by `tick_start`. -/
def sortNodesByStart (ns : List NTrig) : List NTrig :=
  ns.foldr insertNodeByStart []

/-- The reconciliation loop of triggers::add on tagged nodes: the same
loop as addLoop (see there, including the skip of the new first element
after an erase), instrumented with node identity. -/
def moveAddLoop (t : Trigger) : Nat → List NTrig → Int → Nat → List NTrig × Int
  | 0, ns, cnt, _ => (ns, cnt)
  | fuel + 1, ns, cnt, i =>
    match ns[i]? with
    | none => (ns, cnt)
    | some n =>
      if n.tr.tick_start ≥ t.tick_start ∧ n.tr.tick_end ≤ t.tick_end then
        let cnt' := if n.tr.selected then (if cnt > 0 then cnt - 1 else cnt) else cnt
        moveAddLoop t fuel (ns.eraseIdx i) cnt' 1
      else if n.tr.tick_end ≥ t.tick_end ∧ n.tr.tick_start ≤ t.tick_end then
        moveAddLoop t fuel (ns.set i { n with tr := { n.tr with tick_start := t.tick_end + 1 } }) cnt (i + 1)
      else if n.tr.tick_end ≥ t.tick_start ∧ n.tr.tick_start ≤ t.tick_start then
        moveAddLoop t fuel (ns.set i { n with tr := { n.tr with tick_end := t.tick_start - 1 } }) cnt (i + 1)
      else
        moveAddLoop t fuel ns cnt (i + 1)

/-- triggers::add on tagged nodes, as called from split inside move: the
new trigger is built with the default (spec-modelled, see splitAt)
non-adjusting fixoffset, reconciled, pushed at the front with a fresh
node id, and the list is re-sorted. -/
def moveAdd (st : MoveSt) (tick len off : Int) : MoveSt :=
  let t : Trigger :=
    { tick_start := tick, tick_end := tick + len - 1, offset := off,
      selected := false }
  let r := moveAddLoop t ((st.nodes.length + 1) * (st.nodes.length + 2))
             st.nodes st.cnt 0
  { nodes := sortNodesByStart ({ id := st.nid, tr := t } :: r.1),
    cnt := r.2, nid := st.nid + 1 }

/-- triggers::split(trigger &, midipulse) on the node with the given id
(the same algorithm as splitAt). -/
def moveSplit (st : MoveSt) (cur : Nat) (splittick : Int) : MoveSt :=
  match st.nodes.findIdx? (fun n => n.id == cur) with
  | none => st
  | some i =>
    match st.nodes[i]? with
    | none => st
    | some n =>
      let new_tick_end := n.tr.tick_end
      let st1 := { st with nodes :=
          (st.nodes.set i { n with tr := { n.tr with tick_end := splittick - 1 } }) }
      let len := new_tick_end - splittick
      if len > 1 then moveAdd st1 splittick (len + 1) n.tr.offset else st1

/-- Look up the node with the given id. -/
def getNode (st : MoveSt) (cur : Nat) : Option NTrig :=
  st.nodes.find? (fun n => n.id == cur)

/-- Replace the trigger of the node with the given id. -/
def setNode (st : MoveSt) (cur : Nat) (tr : Trigger) : MoveSt :=
  match st.nodes.findIdx? (fun n => n.id == cur) with
  | none => st
  | some i =>
    match st.nodes[i]? with
    | none => st
    | some n => { st with nodes := (st.nodes.set i { n with tr := tr }) }

/-- The id of the node following `cur` in the current list order, if
any (the ++i at the end of an iteration of move's first loop). -/
def nextNode (st : MoveSt) (cur : Nat) : Option Nat :=
  match st.nodes.findIdx? (fun n => n.id == cur) with
  | none => none
  | some i =>
    match st.nodes[i + 1]? with
    | none => none
    | some n => some n.id

/-- The first loop of triggers::move, one iteration per call, the
iterator being the id of the current node (none = end).  In source
order: (1) a trigger strictly straddling `starttick` is split at
`starttick` (forward) or at `endtick` (backward); (2) the same test
again - after the first split the forward case no longer fires - with
the backward case now truncating the trigger to end at `starttick - 1`;
(3) moving backward, a trigger lying inside `[starttick, endtick]` is
unselected (counting) and erased, and the iterator is reset to
`begin()` - with no `continue`, so step (4) already runs on that first
node (when the erase empties the list the C++ code would dereference
`end()`; the model stops instead); (4) moving backward, a trigger
strictly straddling `endtick` gets its start set to `endtick`.  Then
the iterator advances. -/
def moveLoop1 (starttick endtick : Int) (dir : Bool) :
    Nat → MoveSt → Option Nat → MoveSt
  | 0, st, _ => st
  | _ + 1, st, none => st
  | fuel + 1, st, some cur =>
    let stA :=
      match getNode st cur with
      | none => st
      | some n =>
        if n.tr.tick_start < starttick ∧ starttick < n.tr.tick_end then
          if dir then moveSplit st cur starttick else moveSplit st cur endtick
        else st
    let stB :=
      match getNode stA cur with
      | none => stA
      | some n =>
        if n.tr.tick_start < starttick ∧ starttick < n.tr.tick_end then
          if dir then moveSplit stA cur starttick
          else setNode stA cur { n.tr with tick_end := starttick - 1 }
        else stA
    match getNode stB cur with
    | none => stB
    | some n =>
      if ¬ dir ∧ n.tr.tick_start ≥ starttick ∧ n.tr.tick_end ≤ endtick then
        let cnt' := if n.tr.selected then
            (if stB.cnt > 0 then stB.cnt - 1 else stB.cnt) else stB.cnt
        let stC := { stB with
          nodes := stB.nodes.filter (fun m => ¬ m.id == cur), cnt := cnt' }
        match stC.nodes with
        | [] => stC
        | first :: _ =>
          let cur' := first.id
          let stD :=
            match getNode stC cur' with
            | none => stC
            | some m =>
              if m.tr.tick_start < endtick ∧ endtick < m.tr.tick_end ∧ ¬ dir then
                setNode stC cur' { m.tr with tick_start := endtick }
              else stC
          moveLoop1 starttick endtick dir fuel stD (nextNode stD cur')
      else
        let stD :=
          match getNode stB cur with
          | none => stB
          | some m =>
            if m.tr.tick_start < endtick ∧ endtick < m.tr.tick_end ∧ ¬ dir then
              setNode stB cur { m.tr with tick_start := endtick }
            else stB
        moveLoop1 starttick endtick dir fuel stD (nextNode stD cur)

/-- The second loop of triggers::move: moving forward, every trigger
starting at or after `starttick` is shifted by `distance` and its
offset becomes `(offset + distance) % m_length`; moving backward, every
trigger starting at or after `endtick` is shifted back by `distance`
and its offset is set to `(m_length - distance % m_length) % m_length`
(`%` is the C++ truncating modulus).  Every trigger's offset is then
normalized with adjust_offset. -/
def moveLoop2 (L starttick endtick distance : Int) (dir : Bool) (n : NTrig) :
    NTrig :=
  let t := n.tr
  let t1 :=
    if dir then
      if t.tick_start ≥ starttick then
        { t with tick_start := t.tick_start + distance
                 tick_end := t.tick_end + distance
                 offset := Int.tmod (t.offset + distance) L }
      else t
    else
      if t.tick_start ≥ endtick then
        { t with tick_start := t.tick_start - distance
                 tick_end := t.tick_end - distance
                 offset := Int.tmod (L - Int.tmod distance L) L }
      else t
  { n with tr := { t1 with offset := adjust_offset L t1.offset } }

/-- triggers::move(starttick, distance, direction): the straddle /
erase loop followed by the shift loop.  `L` is the parent sequence
length `m_length`; `fuel` bounds the first loop's iterations (the
theorems below use it on concrete inputs with ample fuel). -/
def move (L : Int) (fuel : Nat) (st : MoveSt) (starttick distance : Int)
    (dir : Bool) : MoveSt :=
  let endtick := starttick + distance
  let st1 :=
    match st.nodes with
    | [] => st
    | first :: _ => moveLoop1 starttick endtick dir fuel st (some first.id)
  { st1 with nodes := st1.nodes.map (moveLoop2 L starttick endtick distance dir) }

/-- jack_assistant::tick_multiplier (jack_assistant.hpp): the factor
converting a JACK tick value to local pulses,
`m_ppqn / (ticks_per_beat * beat_type / 4.0)`.  The C++ double
arithmetic is modelled over the exact rationals; the claims about this
function concern which formula it computes, not rounding. -/
def tick_multiplier (ticks_per_beat beat_type ppqn : ℚ) : ℚ :=
  ppqn / (ticks_per_beat * beat_type / 4)

/-- The multiplier as the spec's words state it:
`(ticks_per_beat × beat_type / 4) / PPQN`.  Spec-side definition, to be
compared with tick_multiplier. -/
def claimed_multiplier (ticks_per_beat beat_type ppqn : ℚ) : ℚ :=
  (ticks_per_beat * beat_type / 4) / ppqn

/-- The spec's overlap relation between two triggers:
`a.tick_start ≤ b.tick_end ∧ b.tick_start ≤ a.tick_end`. -/
def Overlap (a b : Trigger) : Prop :=
  a.tick_start ≤ b.tick_end ∧ b.tick_start ≤ a.tick_end

instance (a b : Trigger) : Decidable (Overlap a b) :=
  inferInstanceAs (Decidable (_ ∧ _))

/-- A tick is covered by a trigger list when some trigger brackets it. -/
def covers (ts : List Trigger) (x : Int) : Prop :=
  ∃ t ∈ ts, brackets t x

instance (ts : List Trigger) (x : Int) : Decidable (covers ts x) :=
  List.decidableBEx _ ts

/-- The number of triggers in the list whose selected flag is set,
as an integer for comparison with `m_number_selected`. -/
def countSelected (ts : List Trigger) : Int :=
  ((ts.filter (fun t => t.selected)).length : Int)

/-- One edit operation on the timeline, for quantifying over edit
sequences: the operations of triggers.cpp that touch the trigger list
and the selection counter but never the undo/redo stacks. -/
inductive Edit where
  | addE (tick len off : Int) (fixoffset : Bool)
  | removeE (tick : Int)
  | splitE (tick : Int)
  | growE (tickfrom tickto len : Int)
  | selectE (tick : Int)
  | unselectE (tick : Int)
deriving Repr, DecidableEq

/-- Apply one edit operation to the state. -/
def applyEdit (s : TrigState) : Edit → TrigState
  | .addE tick len off fixoffset => add s tick len off fixoffset
  | .removeE tick => removeTick s tick
  | .splitE tick => exact_split s tick
  | .growE tickfrom tickto len => grow s tickfrom tickto len
  | .selectE tick => selectTick s tick
  | .unselectE tick => unselectTick s tick

/-- Apply a sequence of edit operations, first to last. -/
def applyEdits (es : List Edit) (s : TrigState) : TrigState :=
  es.foldl applyEdit s

/-- One selection operation, for quantifying over select/unselect call
sequences. -/
inductive SelOp where
  | sel (tick : Int)
  | unsel (tick : Int)
deriving Repr, DecidableEq

/-- Apply one selection operation to the state. -/
def applySelOp (s : TrigState) : SelOp → TrigState
  | .sel tick => selectTick s tick
  | .unsel tick => unselectTick s tick

/-- Apply a sequence of selection operations, first to last. -/
def applySelOps (ops : List SelOp) (s : TrigState) : TrigState :=
  ops.foldl applySelOp s

/-- A timeline state with the given trigger list, a zeroed selection
counter, empty undo and redo stacks, the given length and the default
PPQN of 192. -/
def mkState (ts : List Trigger) (L : Int) : TrigState :=
  ⟨ts, 0, [], [], L, 192⟩

/-!  Theorems.  First a few facts about the truncating modulus. -/

theorem neg_tmod_dividend (a b : Int) : Int.tmod (-a) b = -(Int.tmod a b) := by
  rw [Int.tmod_def, Int.tmod_def, Int.neg_tdiv]
  ring

theorem tmod_gt_neg (off : Int) {L : Int} (h : 0 < L) : -L < Int.tmod off L := by
  rcases le_or_lt 0 off with hoff | hoff
  · exact lt_of_lt_of_le (by omega) (Int.tmod_nonneg L hoff)
  · have h1 : Int.tmod (-off) L < L := Int.tmod_lt_of_pos (-off) h
    have h2 : Int.tmod (-off) L = -(Int.tmod off L) := by
      rw [← neg_tmod_dividend]
    omega

theorem tmod_emod (off L : Int) : Int.tmod off L % L = off % L := by
  have h : Int.tmod off L = off + L * (-(off.tdiv L)) := by
    rw [Int.tmod_def]; ring
  rw [h, Int.add_mul_emod_self_left]

theorem adjust_offset_eq_emod (off : Int) {L : Int} (h : 0 < L) :
    adjust_offset L off = off % L := by
  have hlow := tmod_gt_neg off h
  have hhigh := Int.tmod_lt_of_pos off h
  have hmod := tmod_emod off L
  unfold adjust_offset
  rw [if_pos h]
  by_cases hneg : Int.tmod off L < 0
  · have e1 : (Int.tmod off L + L) % L = Int.tmod off L % L := by
      have e2 := Int.add_mul_emod_self_left (Int.tmod off L) L 1
      rw [Int.mul_one] at e2
      exact e2
    rw [if_pos hneg, ← hmod, ← e1, Int.emod_eq_of_lt (by omega) (by omega)]
  · rw [if_neg hneg, ← hmod, Int.emod_eq_of_lt (by omega) (by omega)]

/-- Claim C9: for every integer offset, if the content length is
positive then adjust_offset returns a value in `[0, length)` congruent
to the offset modulo the length, and if the length is zero or negative
it returns the offset unchanged. -/
theorem C9_adjust_offset (L off : Int) :
    (0 < L → 0 ≤ adjust_offset L off ∧ adjust_offset L off < L ∧
      adjust_offset L off % L = off % L) ∧
    (L ≤ 0 → adjust_offset L off = off) := by
  constructor
  · intro h
    rw [adjust_offset_eq_emod off h]
    refine ⟨Int.emod_nonneg off (by omega), Int.emod_lt_of_pos off h, ?_⟩
    exact Int.emod_emod_of_dvd off dvd_rfl
  · intro h
    unfold adjust_offset
    rw [if_neg (by omega)]

/-- Witness for C9 at length 5 and offset -7. -/
theorem C9_adjust_offset_witness :
    (0 : Int) < 5 ∧ 0 ≤ adjust_offset 5 (-7) ∧ adjust_offset 5 (-7) < 5 ∧
      adjust_offset 5 (-7) % 5 = (-7) % 5 :=
  ⟨by decide, (C9_adjust_offset 5 (-7)).1 (by decide)⟩

/-- Claim C10: pop_undo on an empty undo stack, and pop_redo on an
empty redo stack, change nothing at all: the whole state (live list,
both stacks, selection count) is returned unchanged. -/
theorem C10_pop_empty_noop (s : TrigState) :
    (s.undo_stack = [] → pop_undo s = s) ∧
    (s.redo_stack = [] → pop_redo s = s) := by
  constructor
  · intro h; simp [pop_undo, h]
  · intro h; simp [pop_redo, h]

/-- Witness for C10 on a concrete state with empty stacks. -/
theorem C10_pop_empty_noop_witness :
    pop_undo (mkState [⟨0, 9, 0, false⟩] 480) = mkState [⟨0, 9, 0, false⟩] 480 ∧
    pop_redo (mkState [⟨0, 9, 0, false⟩] 480) = mkState [⟨0, 9, 0, false⟩] 480 :=
  ⟨(C10_pop_empty_noop (mkState [⟨0, 9, 0, false⟩] 480)).1 rfl,
   (C10_pop_empty_noop (mkState [⟨0, 9, 0, false⟩] 480)).2 rfl⟩

/-- Counterexample to claim C6: at ticks_per_beat = 1920, beat_type = 4
and PPQN = 192 the code's tick_multiplier is 1/10 while the multiplier
the spec states is 10; they differ. -/
theorem C6_multiplier_counterexample :
    tick_multiplier 1920 4 192 = 1 / 10 ∧
    claimed_multiplier 1920 4 192 = 10 ∧
    tick_multiplier 1920 4 192 ≠ claimed_multiplier 1920 4 192 := by
  refine ⟨?_, ?_, ?_⟩ <;> norm_num [tick_multiplier, claimed_multiplier]

/-- Claim C6 as amended: the code's conversion factor is the reciprocal
of the spec's formula - tick_multiplier equals
`PPQN / (ticks_per_beat × beat_type / 4)`, so multiplying it by the
spec's `(ticks_per_beat × beat_type / 4) / PPQN` gives 1 whenever both
denominators are non-zero. -/
theorem C6_multiplier_amended (t b p : ℚ) (ht : t * b ≠ 0) (hp : p ≠ 0) :
    tick_multiplier t b p * claimed_multiplier t b p = 1 := by
  unfold tick_multiplier claimed_multiplier
  have h4 : t * b / 4 ≠ 0 := by
    intro h
    exact ht (by linarith [h])
  field_simp
  ring

/-- Witness for the amended C6 at the JACK defaults. -/
theorem C6_multiplier_amended_witness :
    (1920 : ℚ) * 4 ≠ 0 ∧ (192 : ℚ) ≠ 0 ∧
    tick_multiplier 1920 4 192 * claimed_multiplier 1920 4 192 = 1 :=
  ⟨by norm_num, by norm_num,
   C6_multiplier_amended 1920 4 192 (by norm_num) (by norm_num)⟩

/-- Claim C1 is violated by the code (code bug): starting from an empty
timeline, add(10,11,0,false), add(30,11,0,false), add(5,31,0,false) -
all with positive length - leave the two distinct triggers [5,35] and
[30,40], which overlap.  The reconciliation loop erases the contained
trigger [10,20] and resets its iterator to begin(), but the loop's
increment then skips the first element, so [30,40] is never reconciled
against the new [5,35]. -/
theorem C1_add_overlap_bug :
    (add (add (add (mkState [] 0) 10 11 0 false) 30 11 0 false) 5 31 0 false).triggers
      = [⟨5, 35, 0, false⟩, ⟨30, 40, 0, false⟩] ∧
    Overlap ⟨5, 35, 0, false⟩ ⟨30, 40, 0, false⟩ ∧
    (⟨5, 35, 0, false⟩ : Trigger) ≠ ⟨30, 40, 0, false⟩ := by
  decide

/-- Claim C2: on the timeline [0,99], [200,299] with the track not
playing, play(0,50) turns the track on; play(50,150) returns true with
end_tick set to 99 (the first trigger's end) and the track goes off;
play(150,250) turns the track on again.  The parent's last tick and the
trigger offsets are arbitrary. -/
theorem C2_play_scenario (o1 o2 lt1 lt2 lt3 : Int) (s1 s2 : Bool) :
    (seqPlayStep [⟨0, 99, o1, s1⟩, ⟨200, 299, o2, s2⟩] false lt1 0 50).playing = true ∧
    (seqPlayStep [⟨0, 99, o1, s1⟩, ⟨200, 299, o2, s2⟩] true lt2 50 150).result = true ∧
    (seqPlayStep [⟨0, 99, o1, s1⟩, ⟨200, 299, o2, s2⟩] true lt2 50 150).end_tick = 99 ∧
    (seqPlayStep [⟨0, 99, o1, s1⟩, ⟨200, 299, o2, s2⟩] true lt2 50 150).playing = false ∧
    (seqPlayStep [⟨0, 99, o1, s1⟩, ⟨200, 299, o2, s2⟩] false lt3 150 250).playing = true := by
  refine ⟨?_, ?_, ?_, ?_, ?_⟩ <;>
    simp [seqPlayStep, play, playScan]

/-- Counterexample to claim C3: splitting the trigger [0,5] at its last
tick k = 5 (which satisfies a < k ≤ b) only truncates it to [0,4]; no
second trigger [5,5] is added, and tick 5 is no longer covered. -/
theorem C3_split_counterexample :
    (splitAt (mkState [⟨0, 5, 7, false⟩] 480) 0 5).triggers = [⟨0, 4, 7, false⟩] ∧
    covers [⟨0, 5, 7, false⟩] 5 ∧
    ¬ covers (splitAt (mkState [⟨0, 5, 7, false⟩] 480) 0 5).triggers 5 := by
  decide

/-- Claim C3 as amended: split(t, k) on trigger [a,b] yields [a,k-1] and
[k,b] with the same offset, adjacent ends and unchanged tick coverage,
provided the remaining span exceeds one pulse, i.e. b - k > 1 (for
k = b and k = b - 1 the source's length guard drops the second trigger,
as the counterexample shows). -/
theorem C3_split_amended (a b k off L : Int) (sel : Bool)
    (hak : a < k) (hkb : b - k > 1) :
    (splitAt (mkState [⟨a, b, off, sel⟩] L) 0 k).triggers =
      [⟨a, k - 1, off, sel⟩, ⟨k, b, off, false⟩] ∧
    (k - 1) + 1 = k ∧
    (∀ x : Int, covers (splitAt (mkState [⟨a, b, off, sel⟩] L) 0 k).triggers x ↔
      covers [⟨a, b, off, sel⟩] x) := by
  have hmain : (splitAt (mkState [⟨a, b, off, sel⟩] L) 0 k).triggers =
      [⟨a, k - 1, off, sel⟩, ⟨k, b, off, false⟩] := by
    have e : k + (b - k + 1) - 1 = b := by ring
    have hA : ¬(a ≥ k) := by omega
    have hB : ¬(k - 1 ≥ b) := by omega
    have hC : ¬(k - 1 ≥ k) := by omega
    simp [splitAt, add, addLoop, sortByStart, insertByStart, mkState, List.set,
      hkb, e, hA, hB, hC, hak]
  refine ⟨hmain, by omega, ?_⟩
  intro x
  rw [hmain]
  simp only [covers, brackets, List.mem_cons, List.mem_singleton]
  constructor
  · rintro ⟨t, ht, hb⟩
    rcases ht with h | h | h
    · exact ⟨⟨a, b, off, sel⟩, Or.inl rfl, by subst h; simp at hb ⊢; omega⟩
    · exact ⟨⟨a, b, off, sel⟩, Or.inl rfl, by subst h; simp at hb ⊢; omega⟩
    · simp at h
  · rintro ⟨t, ht, hb⟩
    rcases ht with h | h
    · subst h
      simp at hb
      by_cases hx : x ≤ k - 1
      · exact ⟨⟨a, k - 1, off, sel⟩, by simp, by simp; omega⟩
      · exact ⟨⟨k, b, off, false⟩, by simp, by simp; omega⟩
    · simp at h

/-- Witness for the amended C3: trigger [0,10] split at 4. -/
theorem C3_split_amended_witness :
    (0 : Int) < 4 ∧ (10 : Int) - 4 > 1 ∧
    (splitAt (mkState [⟨0, 10, 3, true⟩] 480) 0 4).triggers =
      [⟨0, 3, 3, true⟩, ⟨4, 10, 3, false⟩] :=
  ⟨by decide, by decide,
   (C3_split_amended 0 10 4 3 480 true (by decide) (by decide)).1⟩

/-- Counterexample to claim C5: add with length 0 is not rejected - on
an empty timeline, add(5, 0, 0, false) inserts the degenerate trigger
[5,4] instead of leaving the timeline unchanged. -/
theorem C5_add_zero_len_counterexample :
    (add (mkState [] 480) 5 0 0 false).triggers = [⟨5, 4, 0, false⟩] ∧
    (add (mkState [] 480) 5 0 0 false).triggers ≠ (mkState [] 480).triggers := by
  decide

/-- Claim C5 as amended: add performs no length validation; with
len ≤ 0 the call is not rejected - on the empty timeline it inserts the
degenerate trigger [tick, tick+len-1], so the timeline changes. -/
theorem C5_add_nonpositive_amended (tick len off L : Int) (fo : Bool)
    (_h : len ≤ 0) :
    (add (mkState [] L) tick len off fo).triggers =
      [⟨tick, tick + len - 1, if fo then adjust_offset L off else off, false⟩] ∧
    (add (mkState [] L) tick len off fo).triggers ≠ (mkState [] L).triggers := by
  constructor
  · unfold add addLoop
    simp [mkState, sortByStart, insertByStart]
  · unfold add addLoop
    simp [mkState, sortByStart, insertByStart]

/-- Witness for the amended C5 at add(5, 0, 0, false). -/
theorem C5_add_nonpositive_amended_witness :
    (0 : Int) ≤ 0 ∧
    (add (mkState [] 480) 5 0 0 false).triggers = [⟨5, 4, 0, false⟩] ∧
    (add (mkState [] 480) 5 0 0 false).triggers ≠ (mkState [] 480).triggers := by
  refine ⟨by decide, ?_, ?_⟩
  · have h := (C5_add_nonpositive_amended 5 0 0 480 false (by decide)).1
    simpa using h
  · exact (C5_add_nonpositive_amended 5 0 0 480 false (by decide)).2

/-!  Claim C4: the edit operations never touch the undo stack. -/

theorem splitAt_undo_stack (s : TrigState) (idx : Nat) (k : Int) :
    (splitAt s idx k).undo_stack = s.undo_stack := by
  unfold splitAt
  split
  · rfl
  · dsimp only
    split
    · rfl
    · rfl

theorem applyEdit_undo_stack (s : TrigState) (e : Edit) :
    (applyEdit s e).undo_stack = s.undo_stack := by
  cases e with
  | addE tick len off fo => rfl
  | removeE tick =>
    simp only [applyEdit]
    unfold removeTick
    split
    · rfl
    · split
      · rfl
      · rfl
  | splitE tick =>
    simp only [applyEdit]
    unfold exact_split
    split
    · rfl
    · exact splitAt_undo_stack _ _ _
  | growE tickfrom tickto len =>
    simp only [applyEdit]
    unfold grow
    split
    · rfl
    · split
      · rfl
      · rfl
  | selectE tick => rfl
  | unselectE tick => rfl

theorem applyEdits_undo_stack (es : List Edit) (s : TrigState) :
    (applyEdits es s).undo_stack = s.undo_stack := by
  induction es generalizing s with
  | nil => rfl
  | cons e es ih =>
    have h1 : applyEdits (e :: es) s = applyEdits es (applyEdit s e) := rfl
    rw [h1, ih, applyEdit_undo_stack]

/-- Counterexample to claim C4: with one selected trigger [0,9],
push_undo, then an add, then pop_undo restores [0,9] with its selected
flag cleared, not the pre-edit list with the flag set. -/
theorem C4_undo_selected_counterexample :
    (pop_undo (applyEdits [Edit.addE 20 5 0 false]
        (push_undo (⟨[⟨0, 9, 0, true⟩], 1, [], [], 480, 192⟩ : TrigState)))).triggers
      = [⟨0, 9, 0, false⟩] ∧
    (pop_undo (applyEdits [Edit.addE 20 5 0 false]
        (push_undo (⟨[⟨0, 9, 0, true⟩], 1, [], [], 480, 192⟩ : TrigState)))).triggers
      ≠ [⟨0, 9, 0, true⟩] := by
  decide

/-- Claim C4 as amended: for every state and every sequence of edit
operations E, push_undo; E; pop_undo restores the pre-E trigger list up
to selection - tick_start, tick_end and offset of every trigger are
restored exactly, but every restored trigger is unselected, because
push_undo unselects the snapshot it pushes (the live selection counter
is not restored either). -/
theorem C4_undo_round_trip_amended (s : TrigState) (es : List Edit) :
    (pop_undo (applyEdits es (push_undo s))).triggers =
      s.triggers.map (fun t => { t with selected := false }) := by
  have h1 : (applyEdits es (push_undo s)).undo_stack =
      (s.triggers.map fun t => { t with selected := false }) :: s.undo_stack := by
    rw [applyEdits_undo_stack]
    rfl
  unfold pop_undo
  split
  · rename_i heq
    rw [h1] at heq
    exact absurd heq (by simp)
  · rename_i top rest heq
    rw [h1] at heq
    injection heq with h3 h4
    exact h3.symm

/-!  Claim C8: the selection counter tracks the selected flags. -/

theorem countSelected_cons (t : Trigger) (ts : List Trigger) :
    countSelected (t :: ts) = (if t.selected then 1 else 0) + countSelected ts := by
  by_cases h : t.selected
  · simp [countSelected, List.filter_cons, h]
    omega
  · simp [countSelected, List.filter_cons, h]

theorem countSelected_nonneg (ts : List Trigger) : 0 ≤ countSelected ts :=
  Int.natCast_nonneg _

theorem selectTickLoop_count (tick : Int) (ts : List Trigger) :
    ∀ cnt : Int, (selectTickLoop tick ts cnt).2 + countSelected ts =
      cnt + countSelected (selectTickLoop tick ts cnt).1 := by
  induction ts with
  | nil => intro cnt; simp [selectTickLoop]
  | cons tr rest ih =>
    intro cnt
    by_cases hbr : brackets tr tick
    · by_cases hsel : tr.selected
      · have e : selectTickLoop tick (tr :: rest) cnt =
            (tr :: (selectTickLoop tick rest cnt).1,
             (selectTickLoop tick rest cnt).2) := by
          simp [selectTickLoop, selectOne, hbr, hsel]
        rw [e]
        have h1 := ih cnt
        rw [countSelected_cons, countSelected_cons]
        omega
      · have e : selectTickLoop tick (tr :: rest) cnt =
            ({ tr with selected := true } :: (selectTickLoop tick rest (cnt + 1)).1,
             (selectTickLoop tick rest (cnt + 1)).2) := by
          simp [selectTickLoop, selectOne, hbr, hsel]
        rw [e]
        have h1 := ih (cnt + 1)
        rw [countSelected_cons, countSelected_cons]
        simp only [hsel]
        simp
        omega
    · have e : selectTickLoop tick (tr :: rest) cnt =
          (tr :: (selectTickLoop tick rest cnt).1,
           (selectTickLoop tick rest cnt).2) := by
        simp [selectTickLoop, selectOne, hbr]
      rw [e]
      have h1 := ih cnt
      rw [countSelected_cons, countSelected_cons]
      omega

theorem unselectTickLoop_count (tick : Int) (ts : List Trigger) :
    ∀ cnt : Int, countSelected ts ≤ cnt →
      (unselectTickLoop tick ts cnt).2 + countSelected ts =
        cnt + countSelected (unselectTickLoop tick ts cnt).1 := by
  induction ts with
  | nil => intro cnt _; simp [unselectTickLoop]
  | cons tr rest ih =>
    intro cnt hle
    have hhead := countSelected_cons tr rest
    have hrest : countSelected rest ≤ cnt := by
      have := countSelected_nonneg rest
      by_cases h : tr.selected <;> simp [h] at hhead <;> omega
    by_cases hbr : brackets tr tick
    · by_cases hsel : tr.selected
      · have hhead1 : countSelected (tr :: rest) = 1 + countSelected rest := by
          rw [hhead, hsel]
          simp
        have hpos : cnt > 0 := by
          have := countSelected_nonneg rest
          omega
        have e : unselectTickLoop tick (tr :: rest) cnt =
            ({ tr with selected := false } ::
               (unselectTickLoop tick rest (cnt - 1)).1,
             (unselectTickLoop tick rest (cnt - 1)).2) := by
          simp [unselectTickLoop, unselectOne, hbr, hsel, hpos]
        rw [e]
        have h1 := ih (cnt - 1) (by omega)
        rw [countSelected_cons, countSelected_cons]
        simp only [hsel]
        simp
        omega
      · have e : unselectTickLoop tick (tr :: rest) cnt =
            (tr :: (unselectTickLoop tick rest cnt).1,
             (unselectTickLoop tick rest cnt).2) := by
          simp [unselectTickLoop, unselectOne, hbr, hsel]
        rw [e]
        have h1 := ih cnt hrest
        rw [countSelected_cons, countSelected_cons]
        omega
    · have e : unselectTickLoop tick (tr :: rest) cnt =
          (tr :: (unselectTickLoop tick rest cnt).1,
           (unselectTickLoop tick rest cnt).2) := by
        simp [unselectTickLoop, unselectOne, hbr]
      rw [e]
      have h1 := ih cnt hrest
      rw [countSelected_cons, countSelected_cons]
      omega

theorem applySelOp_count (s : TrigState) (op : SelOp)
    (h : s.number_selected = countSelected s.triggers) :
    (applySelOp s op).number_selected =
      countSelected (applySelOp s op).triggers := by
  cases op with
  | sel tick =>
    have h1 := selectTickLoop_count tick s.triggers s.number_selected
    simp only [applySelOp, selectTick]
    omega
  | unsel tick =>
    have h1 := unselectTickLoop_count tick s.triggers s.number_selected (by omega)
    simp only [applySelOp, unselectTick]
    omega

theorem applySelOps_count (ops : List SelOp) :
    ∀ s : TrigState, s.number_selected = countSelected s.triggers →
      (applySelOps ops s).number_selected =
        countSelected (applySelOps ops s).triggers := by
  induction ops with
  | nil => intro s h; exact h
  | cons op ops ih =>
    intro s h
    have h1 : applySelOps (op :: ops) s = applySelOps ops (applySelOp s op) := rfl
    rw [h1]
    exact ih _ (applySelOp_count s op h)

theorem selectTickLoop_idem (tick : Int) (ts : List Trigger) :
    ∀ cnt c2 : Int, selectTickLoop tick (selectTickLoop tick ts cnt).1 c2 =
      ((selectTickLoop tick ts cnt).1, c2) := by
  induction ts with
  | nil => intro cnt c2; simp [selectTickLoop]
  | cons tr rest ih =>
    intro cnt c2
    by_cases hbr : brackets tr tick
    · by_cases hsel : tr.selected
      · have e : selectTickLoop tick (tr :: rest) cnt =
            (tr :: (selectTickLoop tick rest cnt).1,
             (selectTickLoop tick rest cnt).2) := by
          simp [selectTickLoop, selectOne, hbr, hsel]
        rw [e]
        simp [selectTickLoop, selectOne, hbr, hsel, ih]
      · have e : selectTickLoop tick (tr :: rest) cnt =
            ({ tr with selected := true } :: (selectTickLoop tick rest (cnt + 1)).1,
             (selectTickLoop tick rest (cnt + 1)).2) := by
          simp [selectTickLoop, selectOne, hbr, hsel]
        rw [e]
        have hbr2 : brackets { tr with selected := true } tick := hbr
        simp [selectTickLoop, selectOne, hbr2, ih]
    · have e : selectTickLoop tick (tr :: rest) cnt =
          (tr :: (selectTickLoop tick rest cnt).1,
           (selectTickLoop tick rest cnt).2) := by
        simp [selectTickLoop, selectOne, hbr]
      rw [e]
      simp [selectTickLoop, selectOne, hbr, ih]

theorem unselectTickLoop_idem (tick : Int) (ts : List Trigger) :
    ∀ cnt c2 : Int, unselectTickLoop tick (unselectTickLoop tick ts cnt).1 c2 =
      ((unselectTickLoop tick ts cnt).1, c2) := by
  induction ts with
  | nil => intro cnt c2; simp [unselectTickLoop]
  | cons tr rest ih =>
    intro cnt c2
    by_cases hbr : brackets tr tick
    · by_cases hsel : tr.selected
      · have e : unselectTickLoop tick (tr :: rest) cnt =
            ({ tr with selected := false } ::
               (unselectTickLoop tick rest
                 (if cnt > 0 then cnt - 1 else cnt)).1,
             (unselectTickLoop tick rest
               (if cnt > 0 then cnt - 1 else cnt)).2) := by
          simp [unselectTickLoop, unselectOne, hbr, hsel]
        rw [e]
        have hbr2 : brackets { tr with selected := false } tick := hbr
        simp [unselectTickLoop, unselectOne, hbr2, ih]
      · have e : unselectTickLoop tick (tr :: rest) cnt =
            (tr :: (unselectTickLoop tick rest cnt).1,
             (unselectTickLoop tick rest cnt).2) := by
          simp [unselectTickLoop, unselectOne, hbr, hsel]
        rw [e]
        simp [unselectTickLoop, unselectOne, hbr, hsel, ih]
    · have e : unselectTickLoop tick (tr :: rest) cnt =
          (tr :: (unselectTickLoop tick rest cnt).1,
           (unselectTickLoop tick rest cnt).2) := by
        simp [unselectTickLoop, unselectOne, hbr]
      rw [e]
      simp [unselectTickLoop, unselectOne, hbr, ih]

theorem selectTick_idem (s : TrigState) (k : Int) :
    selectTick (selectTick s k) k = selectTick s k := by
  simp only [selectTick]
  rw [selectTickLoop_idem]

theorem unselectTick_idem (s : TrigState) (k : Int) :
    unselectTick (unselectTick s k) k = unselectTick s k := by
  simp only [unselectTick]
  rw [unselectTickLoop_idem]

theorem countSelected_of_all_unselected (ts : List Trigger)
    (h : (ts.all fun t => !t.selected) = true) : countSelected ts = 0 := by
  induction ts with
  | nil => rfl
  | cons tr rest ih =>
    simp only [List.all_cons, Bool.and_eq_true] at h
    rw [countSelected_cons, ih h.2]
    simp only [Bool.not_eq_true'] at h
    simp [h.1]

/-- Claim C8: starting from a timeline whose triggers are all unselected
and whose counter is zero, after any sequence of select/unselect calls
the counter equals the number of triggers whose selected flag is set;
moreover a repeated select of an already-selected spot or a repeated
unselect of an already-unselected spot changes nothing at all (list and
counter alike), at any tick and from any reachable state. -/
theorem C8_selection_count (ops : List SelOp) (ts : List Trigger) (L : Int)
    (h : (ts.all fun t => !t.selected) = true) :
    (applySelOps ops (mkState ts L)).number_selected =
      countSelected (applySelOps ops (mkState ts L)).triggers ∧
    (∀ k : Int,
      selectTick (selectTick (applySelOps ops (mkState ts L)) k) k =
        selectTick (applySelOps ops (mkState ts L)) k ∧
      unselectTick (unselectTick (applySelOps ops (mkState ts L)) k) k =
        unselectTick (applySelOps ops (mkState ts L)) k) := by
  constructor
  · apply applySelOps_count
    simp [mkState, countSelected_of_all_unselected ts h]
  · intro k
    exact ⟨selectTick_idem _ k, unselectTick_idem _ k⟩

/-- Witness for C8: one unselected trigger, a double select at 5 and a
double unselect at 7. -/
theorem C8_selection_count_witness :
    ((([⟨0, 9, 0, false⟩] : List Trigger)).all fun t => !t.selected) = true ∧
    (applySelOps [SelOp.sel 5, SelOp.sel 5, SelOp.unsel 7, SelOp.unsel 7]
        (mkState [⟨0, 9, 0, false⟩] 480)).number_selected =
      countSelected (applySelOps [SelOp.sel 5, SelOp.sel 5, SelOp.unsel 7, SelOp.unsel 7]
        (mkState [⟨0, 9, 0, false⟩] 480)).triggers :=
  ⟨by decide,
   (C8_selection_count [SelOp.sel 5, SelOp.sel 5, SelOp.unsel 7, SelOp.unsel 7]
     [⟨0, 9, 0, false⟩] 480 (by decide)).1⟩

/-- Claim C7: on the timeline holding exactly the trigger [0,199],
move(100, 50, forward) splits exactly at tick 100 and shifts the later
part by 50: the result is exactly the two triggers [0,99] and [150,249],
whatever the (positive) content length. -/
theorem C7_move_scenario (L : Int) (_h : 0 < L) :
    ((move L 8 ⟨[⟨0, ⟨0, 199, 0, false⟩⟩], 0, 1⟩ 100 50 true).nodes.map
        (fun n => (n.tr.tick_start, n.tr.tick_end))) = [(0, 99), (150, 249)] := by
  have h1 : moveLoop1 100 150 true 8 ⟨[⟨0, ⟨0, 199, 0, false⟩⟩], 0, 1⟩ (some 0) =
      ⟨[⟨0, ⟨0, 99, 0, false⟩⟩, ⟨1, ⟨100, 199, 0, false⟩⟩], 0, 2⟩ := by
    decide
  unfold move
  simp only []
  rw [show (100 : Int) + 50 = 150 from rfl]
  rw [h1]
  simp [moveLoop2]

/-- Witness for C7 at content length 480. -/
theorem C7_move_scenario_witness :
    (0 : Int) < 480 ∧
    ((move 480 8 ⟨[⟨0, ⟨0, 199, 0, false⟩⟩], 0, 1⟩ 100 50 true).nodes.map
        (fun n => (n.tr.tick_start, n.tr.tick_end))) = [(0, 99), (150, 249)] :=
  ⟨by decide, C7_move_scenario 480 (by decide)⟩

end Seq64
